import Mathlib

/-!
Verification development for the AI analysis orchestration layer of the
znapit repository: the provider-response parser and JSON repair routine
(src/unnamed/part_005, class AIService), the heuristic analyzer, cache and
orchestrator (src/unnamed/part_006, classes ContentAnalyzer and
AnalysisProcessor), and the rate-limited request queue
(src/writing-assistant/src/services/ai.ts).

The embedding is shallow: JavaScript values flowing out of JSON.parse are
modelled by the inductive type Json below; JavaScript numbers are modelled
by Option Rat, where none stands for NaN (all numbers handled by the code
in the pathways under study are small and exactly representable, so Rat
arithmetic coincides with IEEE double arithmetic there); strings are Lean
strings or lists of characters; Date.now and Math.random are threaded as
explicit parameters.
-/

/-- A JavaScript value as produced by JSON.parse, extended with undefined,
which property access yields for a missing key. -/
inductive Json where
  | undef : Json
  | null : Json
  | bool (b : Bool) : Json
  | num (q : ℚ) : Json
  | str (s : String) : Json
  | arr (xs : List Json) : Json
  | obj (fields : List (String × Json)) : Json

namespace Json

/-- JavaScript truthiness of a value. NaN never occurs inside a parsed Json
value (JSON has no NaN literal), so numbers are tested against zero. -/
def truthy : Json → Bool
  | undef => false
  | null => false
  | bool b => b
  | num q => q != 0
  | str s => s != ""
  | arr _ => true
  | obj _ => true

/-- The JavaScript expression a || b. -/
def jsOr (a b : Json) : Json := if a.truthy then a else b

/-- JavaScript ToNumber on a string: optional whitespace, optional sign,
a decimal literal with optional fraction and exponent. The JS additionally
accepts hex, octal, binary and Infinity forms; no theorem below depends on
such inputs. Returns none for NaN. -/
def strToNumber (s : String) : Option ℚ :=
  let cs := s.toList.dropWhile (fun c => c = ' ' ∨ c = '\t' ∨ c = '\n' ∨ c = '\r')
  let cs := (cs.reverse.dropWhile (fun c => c = ' ' ∨ c = '\t' ∨ c = '\n' ∨ c = '\r')).reverse
  if cs.isEmpty then some 0 else
  let (sign, cs) := match cs with
    | '-' :: rest => ((-1 : ℚ), rest)
    | '+' :: rest => ((1 : ℚ), rest)
    | rest => ((1 : ℚ), rest)
  let intPart := cs.takeWhile Char.isDigit
  let cs1 := cs.drop intPart.length
  let (fracPart, cs2) := match cs1 with
    | '.' :: rest => (rest.takeWhile Char.isDigit, rest.drop (rest.takeWhile Char.isDigit).length)
    | rest => ([], rest)
  if intPart.isEmpty ∧ fracPart.isEmpty then none else
  let digitsToNat : List Char → ℕ := fun ds => ds.foldl (fun a c => a * 10 + c.toNat - 48) 0
  let base : ℚ := (digitsToNat intPart : ℚ) +
    (digitsToNat fracPart : ℚ) / ((10 : ℚ) ^ fracPart.length)
  match cs2 with
  | [] => some (sign * base)
  | e :: rest =>
    if e = 'e' ∨ e = 'E' then
      let (esign, rest) := match rest with
        | '-' :: r => (true, r)
        | '+' :: r => (false, r)
        | r => (false, r)
      let eDigits := rest.takeWhile Char.isDigit
      if eDigits.isEmpty ∨ ¬ (rest.drop eDigits.length).isEmpty then none
      else
        let ex := digitsToNat eDigits
        some (sign * base * (if esign then ((10 : ℚ) ^ ex)⁻¹ else (10 : ℚ) ^ ex))
    else none

/-- JavaScript ToNumber coercion; none models NaN. An array coerces through
its joined string form: the empty array gives 0, a singleton coerces as its
element, and longer arrays (whose join contains a comma) give NaN. -/
def toNumber : Json → Option ℚ
  | undef => none
  | null => some 0
  | bool b => some (if b then 1 else 0)
  | num q => some q
  | str s => strToNumber s
  | arr [] => some 0
  | arr [x] => toNumber x
  | arr (_ :: _ :: _) => none
  | obj _ => none

/-- Math.min on two JavaScript numbers (none = NaN absorbs). -/
def jsMin2 (a b : Option ℚ) : Option ℚ :=
  match a, b with
  | some x, some y => some (min x y)
  | _, _ => none

/-- Math.max on two JavaScript numbers (none = NaN absorbs). -/
def jsMax2 (a b : Option ℚ) : Option ℚ :=
  match a, b with
  | some x, some y => some (max x y)
  | _, _ => none

/-- JavaScript property access v[k]. Returns none when the access throws
(v is null or undefined), some undef when the property is missing. Arrays
expose length; parsed objects are assumed free of duplicate keys, which
JSON.parse guarantees up to last-key-wins. -/
def jsGet : Json → String → Option Json
  | undef, _ => none
  | null, _ => none
  | bool _, _ => some undef
  | num _, _ => some undef
  | str s, k => if k = "length" then some (num s.length) else some undef
  | arr xs, k => if k = "length" then some (num xs.length) else some undef
  | obj fields, k =>
    match fields.lookup k with
    | some v => some v
    | none => some undef

/-- The optional-chaining access v?.k: undefined when v is nullish. -/
def jsGetOpt (v : Json) (k : String) : Option Json :=
  match v with
  | undef => some undef
  | null => some undef
  | _ => jsGet v k

end Json

/-! ## The provider-response field mapping of AIService.parseAnalysisResponse
(src/unnamed/part_005, lines 402-446). The stages upstream of the parsed
analysisData object (markdown stripping, JSON.parse, repair) are modelled
separately with attemptJSONRepair below; here analysisData is the already
parsed value. -/

open Json

/-- One clamped metric score:
Math.max(1, Math.min(10, analysisData.metrics.X || 5)). -/
def clampScore (v : Json) : Option ℚ :=
  jsMax2 (some 1) (jsMin2 (some 10) (toNumber (jsOr v (Json.num 5))))

/-- Math.max(0, s.position?.start || 0). -/
def clampStart (v : Json) : Option ℚ :=
  jsMax2 (some 0) (toNumber (jsOr v (Json.num 0)))

/-- Math.min(originalContent.length, s.position?.end || 0). -/
def clampEnd (len : ℚ) (v : Json) : Option ℚ :=
  jsMin2 (some len) (toNumber (jsOr v (Json.num 0)))

/-- A suggestion as assembled by parseAnalysisResponse; field values other
than positions are JavaScript values taken from the provider object. -/
structure ParsedSuggestion where
  type : Json
  severity : Json
  description : Json
  originalText : Json
  suggestedText : Json
  posStart : Option ℚ
  posEnd : Option ℚ

/-- An ambiguous phrase as assembled by parseAnalysisResponse. -/
structure ParsedPhrase where
  text : Json
  posStart : Option ℚ
  posEnd : Option ℚ
  reason : Json
  suggestions : List Json

/-- The clamped metrics block of parseAnalysisResponse. -/
structure ParsedMetrics where
  readabilityScore : Option ℚ
  clarityScore : Option ℚ
  toneAnalysis : Json
  targetAudience : Json

structure ParsedAnalysis where
  metrics : ParsedMetrics
  suggestions : List ParsedSuggestion
  ambiguousPhrases : List ParsedPhrase

/-- The per-suggestion mapping on line 411-421 of part_005. Returns none
when the JavaScript evaluation throws (property access on null/undefined).
len is originalContent.length. -/
def processSuggestion (len : ℚ) (s : Json) : Option ParsedSuggestion := do
  let ty ← jsGet s "type"
  let sev ← jsGet s "severity"
  let desc ← jsGet s "description"
  let orig ← jsGet s "originalText"
  let sugg ← jsGet s "suggestedText"
  let pos ← jsGet s "position"
  let ps ← jsGetOpt pos "start"
  let pe ← jsGetOpt pos "end"
  some {
    type := jsOr ty (Json.str "clarity")
    severity := jsOr sev (Json.str "low")
    description := jsOr desc (Json.str "")
    originalText := jsOr orig (Json.str "")
    suggestedText := jsOr sugg (Json.str "")
    posStart := clampStart ps
    posEnd := clampEnd len pe }

/-- The per-phrase mapping on line 424-432 of part_005. -/
def processPhrase (len : ℚ) (p : Json) : Option ParsedPhrase := do
  let tx ← jsGet p "text"
  let pos ← jsGet p "position"
  let ps ← jsGetOpt pos "start"
  let pe ← jsGetOpt pos "end"
  let rs ← jsGet p "reason"
  let sg ← jsGet p "suggestions"
  some {
    text := jsOr tx (Json.str "")
    posStart := clampStart ps
    posEnd := clampEnd len pe
    reason := jsOr rs (Json.str "")
    suggestions := match sg with | Json.arr xs => xs | _ => [] }

/-- parseAnalysisResponse from the structure check onward (part_005 lines
402-446), acting on the parsed analysisData value. none models a thrown
error (invalid structure, or a TypeError during mapping), which the code
converts into an AIServiceError. -/
def parseAnalysisData (analysisData : Json) (len : ℚ) : Option ParsedAnalysis := do
  let m ← jsGet analysisData "metrics"
  let sArr ← jsGet analysisData "suggestions"
  if ¬ m.truthy then none else
  match sArr with
  | Json.arr suggJs => do
    let suggestions ← suggJs.mapM (processSuggestion len)
    let phrasesVal ← jsGet analysisData "ambiguousPhrases"
    let phrases ← match jsOr phrasesVal (Json.arr []) with
      | Json.arr ps => ps.mapM (processPhrase len)
      | _ => none
    let rd ← jsGet m "readabilityScore"
    let cl ← jsGet m "clarityScore"
    let tone ← jsGet m "toneAnalysis"
    let aud ← jsGet m "targetAudience"
    some {
      metrics := {
        readabilityScore := clampScore rd
        clarityScore := clampScore cl
        toneAnalysis := jsOr tone (Json.str "Neutral")
        targetAudience := jsOr aud (Json.str "General audience") }
      suggestions := suggestions
      ambiguousPhrases := phrases }
  | _ => none

/-! ## The heuristic analyzer: AnalysisProcessor of src/unnamed/part_006.
Content is handled as a list of characters; for the ASCII texts this code
operates on, JavaScript string length and indices agree with character
counts. -/

/-- JavaScript regex whitespace class (the ASCII part; the class further
contains Unicode spaces, which do not occur in any input below). -/
def isWsJS (c : Char) : Bool :=
  c = ' ' ∨ c = '\t' ∨ c = '\n' ∨ c = '\r' ∨ c = '\x0b' ∨ c = '\x0c'

/-- JavaScript regex word-character class (backslash-w). -/
def isWordChar (c : Char) : Bool := c.isAlpha ∨ c.isDigit ∨ c = '_'

/-- The sentence-terminator class of the split regex on [.!?]+. -/
def isSentTerm (c : Char) : Bool := c = '.' ∨ c = '!' ∨ c = '?'

/-- String.prototype.trim. -/
def trimJS (cs : List Char) : List Char :=
  ((cs.dropWhile isWsJS).reverse.dropWhile isWsJS).reverse

theorem length_dropWhile_le' (p : Char → Bool) (l : List Char) :
    (l.dropWhile p).length ≤ l.length := by
  induction l with
  | nil => simp [List.dropWhile]
  | cons c rest ih =>
    simp only [List.dropWhile]
    split
    · exact Nat.le_succ_of_le ih
    · simp

/-- Helper of splitRuns: acc holds the current segment reversed. Every
recursive call consumes at least one input character while the fuel
decreases by one, so fuel = length + 1 never runs out; the fuel-zero
branch is unreachable. Structural recursion on fuel keeps the definition
kernel-reducible. -/
def splitRunsAux (p : Char → Bool) (fuel : ℕ) (acc : List Char)
    (cs : List Char) : List (List Char) :=
  match fuel with
  | 0 => [acc.reverse]
  | fuel + 1 =>
    match cs with
    | [] => [acc.reverse]
    | c :: rest =>
      if p c then acc.reverse :: splitRunsAux p fuel [] (rest.dropWhile p)
      else splitRunsAux p fuel (c :: acc) rest

/-- String.prototype.split on a regex of the form [C]+ for a character
class C: segments between maximal runs of class characters (a leading or
trailing run yields an empty segment, as in JavaScript). -/
def splitRuns (p : Char → Bool) (cs : List Char) : List (List Char) :=
  splitRunsAux p (cs.length + 1) [] cs

/-- content.trim().split(backslash-s+).filter(word length positive),
part_006 line 159. -/
def getWords (content : List Char) : List (List Char) :=
  (splitRuns isWsJS (trimJS content)).filter (fun w => w.length > 0)

/-- content.split([.!?]+).filter(trimmed nonempty), part_006 line 160. -/
def getSentences (content : List Char) : List (List Char) :=
  (splitRuns isSentTerm content).filter (fun s => (trimJS s).length > 0)

/-- Length of the leftmost match of the paragraph-separator regex
(newline, backslash-s*, newline) at the head of the list, if any. The
greedy middle part backtracks until a final newline is available, so the
match runs up to the last newline inside the maximal whitespace run that
follows the first newline. -/
def paraSepLen (cs : List Char) : Option ℕ :=
  match cs with
  | '\n' :: rest =>
    let run := rest.takeWhile isWsJS
    match run.reverse.findIdx? (fun c => c = '\n') with
    | some k => some (1 + (run.length - 1 - k) + 1)
    | none => none
  | _ => none

theorem paraSepLen_two_le (cs : List Char) (n : ℕ) (h : paraSepLen cs = some n) :
    2 ≤ n := by
  unfold paraSepLen at h
  split at h
  · dsimp only at h
    split at h
    · injection h with h
      omega
    · exact absurd h (by simp)
  · exact absurd h (by simp)

/-- Helper of splitParas: scans for leftmost matches of the paragraph
separator and cuts segments, resuming after each match. A match of length
n at c :: rest always has n at least 2, so dropping n characters from
c :: rest is dropping n - 1 characters from rest. As in splitRunsAux,
each call consumes at least one character, so fuel = length + 1 always
suffices and the fuel-zero branch is unreachable. -/
def splitParasAux (fuel : ℕ) (acc : List Char) (cs : List Char) :
    List (List Char) :=
  match fuel with
  | 0 => [acc.reverse]
  | fuel + 1 =>
    match cs with
    | [] => [acc.reverse]
    | c :: rest =>
      match paraSepLen (c :: rest) with
      | some n => acc.reverse :: splitParasAux fuel [] (rest.drop (n - 1))
      | none => splitParasAux fuel (c :: acc) rest

/-- content.split(newline backslash-s* newline), part_006 line 161. -/
def splitParas (cs : List Char) : List (List Char) :=
  splitParasAux (cs.length + 1) [] cs

/-- The filtered paragraph list of part_006 line 161. -/
def getParagraphs (content : List Char) : List (List Char) :=
  (splitParas content).filter (fun p => (trimJS p).length > 0)

/-- Occurrence test for the word-boundary regex at one position: the
literal w (all word characters) starts at index i, the character before
(if any) is not a word character, and the character after the occurrence
(if any) is not a word character. -/
def boundaryMatchAt (w : List Char) (content : List Char) (i : ℕ) : Bool :=
  let rest := content.drop i
  w.isPrefixOf rest &&
    (match content.get? (i - 1) with
     | some c => decide (i = 0) || ! isWordChar c
     | none => true) &&
    (match rest.drop w.length with
     | [] => true
     | c :: _ => ! isWordChar c)

/-- Number of global-regex matches of a boundary-delimited literal word.
For a literal consisting purely of word characters, two boundary
occurrences can never overlap (a later start inside an occurrence would
need a non-word character immediately before it), so the non-overlapping
left-to-right global scan finds exactly the set of boundary positions and
this count equals the JavaScript match count. -/
def countWordBnd (w : List Char) (content : List Char) : ℕ :=
  ((List.range content.length).filter (fun i => boundaryMatchAt w content i)).length

def formalIndicators : List String :=
  ["therefore", "however", "furthermore", "consequently", "nevertheless"]

def casualIndicators : List String :=
  ["just", "really", "pretty", "kinda", "gonna", "wanna"]

def technicalIndicators : List String :=
  ["implement", "configure", "optimize", "analyze", "framework"]

def emotionalIndicators : List String :=
  ["amazing", "terrible", "love", "hate", "excited", "frustrated"]

/-- The reduce that sums boundary-word match counts over an indicator
list, applied to the lowercased content (part_006 lines 210-220). -/
def countIndicators (ws : List String) (lower : List Char) : ℕ :=
  ws.foldl (fun count w => count + countWordBnd w.toList lower) 0

def formalCount (content : List Char) : ℕ :=
  countIndicators formalIndicators (content.map Char.toLower)

def casualCount (content : List Char) : ℕ :=
  countIndicators casualIndicators (content.map Char.toLower)

def technicalCount (content : List Char) : ℕ :=
  countIndicators technicalIndicators (content.map Char.toLower)

def emotionalCount (content : List Char) : ℕ :=
  countIndicators emotionalIndicators (content.map Char.toLower)

/-- AnalysisProcessor.analyzeTone (part_006 lines 201-233). -/
def analyzeTone (content : List Char) : String :=
  if technicalCount content > formalCount content ∧
      technicalCount content > casualCount content then "Technical"
  else if formalCount content > casualCount content ∧
      formalCount content > emotionalCount content then "Formal"
  else if casualCount content > formalCount content then "Casual"
  else if emotionalCount content > 2 then "Emotional"
  else "Neutral"

def technicalTerms : List String :=
  ["api", "framework", "database", "algorithm", "implementation"]

/-- String.prototype.includes as a substring test. -/
def containsSub (needle hay : List Char) : Bool :=
  (List.range (hay.length + 1)).any (fun i => needle.isPrefixOf (hay.drop i))

/-- AnalysisProcessor.determineTargetAudience (part_006 lines 235-254). -/
def determineTargetAudience (content : List Char) (avgWordsPerSentence : ℚ) :
    String :=
  let lower := content.map Char.toLower
  if avgWordsPerSentence > 25 then "Academic/Professional"
  else if avgWordsPerSentence < 15 then "General/Casual"
  else
    let techCount := technicalTerms.foldl
      (fun count t => count + (if containsSub t.toList lower then 1 else 0)) (0 : ℕ)
    if techCount > 2 then "Technical/Developer"
    else "General audience"

/-- The record computed by AnalysisProcessor.calculateBasicMetrics.
Scores are rational-valued JavaScript numbers; on this path they are
integer arithmetic throughout. -/
structure BasicMetrics where
  readabilityScore : ℚ
  clarityScore : ℚ
  toneAnalysis : String
  targetAudience : String
  wordCount : ℕ
  sentenceCount : ℕ
  paragraphCount : ℕ
  avgWordsPerSentence : ℚ
  avgSentencesPerParagraph : ℚ
deriving DecidableEq, Repr

/-- AnalysisProcessor.calculateBasicMetrics (part_006 lines 158-199). The
running decrements of the source are written as subtracted conditionals,
which is the same arithmetic. Exact rational division stands in for IEEE
division; the two can only disagree on comparisons against the literal
thresholds for word counts beyond any representable text. -/
def calculateBasicMetrics (content : List Char) : BasicMetrics :=
  let wordCount := (getWords content).length
  let sentenceCount := (getSentences content).length
  let paragraphCount := (getParagraphs content).length
  let avgW : ℚ := if sentenceCount > 0 then (wordCount : ℚ) / sentenceCount else 0
  let avgS : ℚ :=
    if paragraphCount > 0 then (sentenceCount : ℚ) / paragraphCount else 0
  let readability : ℚ := 10 - (if avgW > 20 then 2 else 0)
    - (if avgW > 25 then 2 else 0) - (if avgW > 30 then 2 else 0)
  let clarity : ℚ := 8 - (if avgS > 5 then 1 else 0)
    - (if paragraphCount = 1 ∧ sentenceCount > 10 then 1 else 0)
  { readabilityScore := max 1 (min 10 readability)
    clarityScore := max 1 (min 10 clarity)
    toneAnalysis := analyzeTone content
    targetAudience := determineTargetAudience content avgW
    wordCount := wordCount
    sentenceCount := sentenceCount
    paragraphCount := paragraphCount
    avgWordsPerSentence := avgW
    avgSentencesPerParagraph := avgS }

/-- Case-insensitive literal match of (a lowercase) w at the head of cs,
as under the regex i flag. -/
def matchLitCI (w : List Char) (cs : List Char) : Bool :=
  (cs.take w.length).map Char.toLower = w

/-- Word-boundary condition given the character preceding the scan
position (none at the start of the string). All patterns below start with
a word character, so the boundary holds iff the previous character is
absent or not a word character. -/
def bndBefore (prev : Option Char) : Bool :=
  match prev with
  | none => true
  | some c => ! isWordChar c

/-- Word-boundary condition after a match ending in a word character. -/
def bndAfter (rest : List Char) : Bool :=
  match rest with
  | [] => true
  | c :: _ => ! isWordChar c

/-- Matcher for a pattern of the form word-boundary, alternation of
literal words, word-boundary, with the i flag. Alternatives are tried in
order, as the regex engine does; the returned text is the slice of the
input, preserving its case. -/
def matchAltWordB (alts : List String) (prev : Option Char) (cs : List Char) :
    Option (List Char) :=
  if ! bndBefore prev then none
  else alts.findSome? (fun w =>
    let wl := w.toList
    if matchLitCI wl cs && bndAfter (cs.drop wl.length) then
      some (cs.take wl.length)
    else none)

/-- Matcher for word-boundary, alternation, backslash-s+, backslash-w+
(the weak-intensifier pattern). The whitespace and word classes are
disjoint, so the greedy runs admit no other backtracking split. -/
def matchIntensifier (prev : Option Char) (cs : List Char) :
    Option (List Char) :=
  if ! bndBefore prev then none
  else ["very", "really", "quite"].findSome? (fun w =>
    let wl := w.toList
    if matchLitCI wl cs then
      let afterW := cs.drop wl.length
      let wsRun := afterW.takeWhile isWsJS
      if wsRun.length = 0 then none
      else
        let afterWs := afterW.drop wsRun.length
        let wordRun := afterWs.takeWhile isWordChar
        if wordRun.length = 0 then none
        else some (cs.take (wl.length + wsRun.length + wordRun.length))
    else none)

/-- Matcher for the passive-voice pattern: word-boundary, an auxiliary
from the alternation, backslash-s+, backslash-w+, literal ed,
word-boundary. The trailing boundary forces the word run to be maximal,
so the greedy run matches iff the maximal word run has length at least 3
and ends in ed (case-insensitively). -/
def matchPassive (prev : Option Char) (cs : List Char) : Option (List Char) :=
  if ! bndBefore prev then none
  else ["is", "are", "was", "were", "be", "been", "being"].findSome? (fun w =>
    let wl := w.toList
    if matchLitCI wl cs then
      let afterW := cs.drop wl.length
      let wsRun := afterW.takeWhile isWsJS
      if wsRun.length = 0 then none
      else
        let afterWs := afterW.drop wsRun.length
        let wordRun := afterWs.takeWhile isWordChar
        if wordRun.length ≥ 3 ∧
            (wordRun.map Char.toLower).drop (wordRun.length - 2) = ['e', 'd'] then
          some (cs.take (wl.length + wsRun.length + wordRun.length))
        else none
    else none)

/-- The RegExp.exec loop over a global regex: scan left to right, record
each match with its index, resume after the matched text (advancing one
position on a zero-length match, as lastIndex does; no pattern below can
match the empty string). -/
def gScanAux (m : Option Char → List Char → Option (List Char)) (fuel : ℕ)
    (idx : ℕ) (prev : Option Char) (cs : List Char) : List (ℕ × List Char) :=
  match fuel with
  | 0 => []
  | fuel + 1 =>
    match cs with
    | [] => []
    | c :: rest =>
      match m prev (c :: rest) with
      | none => gScanAux m fuel (idx + 1) (some c) rest
      | some t =>
        if t.length = 0 then (idx, t) :: gScanAux m fuel (idx + 1) (some c) rest
        else (idx, t) :: gScanAux m fuel (idx + t.length) t.getLast?
          (rest.drop (t.length - 1))

def gScan (m : Option Char → List Char → Option (List Char))
    (cs : List Char) : List (ℕ × List Char) :=
  gScanAux m (cs.length + 1) 0 none cs

/-- A character position range; the source field named end is a Lean
keyword and is rendered stop. -/
structure HPosition where
  start : ℕ
  stop : ℕ
deriving DecidableEq, Repr

structure HSuggestion where
  type : String
  severity : String
  description : String
  originalText : String
  suggestedText : String
  position : HPosition
deriving DecidableEq, Repr

structure HAmbiguousPhrase where
  text : String
  position : HPosition
  reason : String
  suggestions : List String
deriving DecidableEq, Repr

structure HMetrics where
  readabilityScore : ℚ
  clarityScore : ℚ
  toneAnalysis : String
  targetAudience : String
deriving DecidableEq, Repr

/-- The AnalysisResult record of src/unnamed/part_000; timestamp is an
epoch-milliseconds integer. -/
structure AnalysisResult where
  id : String
  postId : String
  timestamp : ℤ
  metrics : HMetrics
  suggestions : List HSuggestion
  ambiguousPhrases : List HAmbiguousPhrase
deriving DecidableEq, Repr

/-- The four pattern rows of detectAmbiguousPhrases (part_006 lines
327-348): matcher, fixed reason, fixed suggestion list. -/
def ambiguousPatterns :
    List ((Option Char → List Char → Option (List Char)) × String ×
      List String) :=
  [(matchAltWordB ["a lot", "lots"],
    "Vague quantity. Consider being more specific.",
    ["many", "numerous", "several", "a specific number"]),
   (matchAltWordB ["stuff", "things"],
    "Vague reference. Be more specific about what you mean.",
    ["items", "elements", "components", "specific nouns"]),
   (matchIntensifier,
    "Weak intensifiers. Consider stronger, more specific adjectives.",
    ["use stronger adjectives", "be more specific",
     "remove unnecessary intensifiers"]),
   (matchAltWordB ["maybe", "perhaps", "possibly"],
    "Uncertain language may weaken your message.",
    ["be more definitive", "provide evidence", "state clearly"])]

/-- AnalysisProcessor.detectAmbiguousPhrases (part_006 lines 323-363):
each pattern is exec-scanned over the content and every match is reported
with its exact offsets, in pattern order then position order. -/
def detectAmbiguousPhrases (content : List Char) : List HAmbiguousPhrase :=
  ambiguousPatterns.foldl (fun acc pat =>
    acc ++ (gScan pat.1 content).map (fun it =>
      { text := String.mk it.2
        position := { start := it.1, stop := it.1 + it.2.length }
        reason := pat.2.1
        suggestions := pat.2.2 })) []

/-- The word-frequency table of generateBasicSuggestions: only words
longer than four characters are counted; entries keep first-occurrence
order. (JavaScript object keys that look like array indices would be
listed first; no theorem below involves purely numeric words.) -/
def wordFreqList (ws : List (List Char)) : List (List Char × ℕ) :=
  ws.foldl (fun acc w =>
    if w.length > 4 then
      match acc.lookup w with
      | some _ => acc.map (fun p => if p.1 = w then (p.1, p.2 + 1) else p)
      | none => acc ++ [(w, 1)]
    else acc) []

/-- The tokens of content.toLowerCase().match(word-boundary backslash-w+
word-boundary, global): exactly the maximal word-character runs. -/
def wordTokens (content : List Char) : List (List Char) :=
  (splitRuns (fun c => ! isWordChar c) (content.map Char.toLower)).filter
    (fun w => w.length > 0)

def overusedWords (content : List Char) : List (List Char) :=
  ((wordFreqList (wordTokens content)).filter (fun p => p.2 > 5)).map
    (fun p => p.1)

/-- AnalysisProcessor.generateBasicSuggestions (part_006 lines 256-321). -/
def generateBasicSuggestions (content : List Char) (m : BasicMetrics) :
    List HSuggestion :=
  let len := content.length
  let s1 : List HSuggestion :=
    if m.avgWordsPerSentence > 25 then
      [{ type := "clarity", severity := "medium"
         description :=
           "Consider breaking down long sentences for better readability."
         originalText := "Long sentences detected"
         suggestedText := "Try splitting sentences that exceed 25 words."
         position := { start := 0, stop := len } }]
    else []
  let s2 : List HSuggestion :=
    if m.avgSentencesPerParagraph > 6 then
      [{ type := "structure", severity := "low"
         description :=
           "Consider breaking long paragraphs into smaller chunks."
         originalText := "Long paragraphs detected"
         suggestedText :=
           "Aim for 3-5 sentences per paragraph for better readability."
         position := { start := 0, stop := len } }]
    else []
  let s3 : List HSuggestion :=
    if (gScan matchPassive content).length > 3 then
      [{ type := "clarity", severity := "low"
         description :=
           "Consider using active voice for more engaging writing."
         originalText := "Passive voice detected"
         suggestedText := "Try converting passive sentences to active voice."
         position := { start := 0, stop := len } }]
    else []
  let over := overusedWords content
  let s4 : List HSuggestion :=
    if over.length > 0 then
      [{ type := "clarity", severity := "low"
         description := "The words \"" ++
           String.intercalate ", " ((over.take 3).map String.mk) ++
           "\" appear frequently. Consider using synonyms."
         originalText := String.intercalate ", " (over.map String.mk)
         suggestedText := "Use varied vocabulary to maintain reader interest."
         position := { start := 0, stop := len } }]
    else []
  s1 ++ s2 ++ s3 ++ s4

/-- The postId || empty-string default applied to an optional argument. -/
def strOrEmpty (postId : Option String) : String :=
  match postId with
  | none => ""
  | some s => if s = "" then "" else s

/-- AnalysisProcessor.createBasicAnalysis (part_006 lines 138-156).
Date.now() and the Math.random id suffix are threaded as now and rand. -/
def createBasicAnalysis (content : String) (postId : Option String)
    (now : ℤ) (rand : String) : AnalysisResult :=
  let cs := content.toList
  let m := calculateBasicMetrics cs
  { id := "analysis-" ++ toString now ++ "-" ++ rand
    postId := strOrEmpty postId
    timestamp := now
    metrics :=
      { readabilityScore := m.readabilityScore
        clarityScore := m.clarityScore
        toneAnalysis := m.toneAnalysis
        targetAudience := m.targetAudience }
    suggestions := generateBasicSuggestions cs m
    ambiguousPhrases := detectAmbiguousPhrases cs }

/-! ## JSON.parse validity and AIService.attemptJSONRepair
(src/unnamed/part_005, lines 250-328). -/

def quoteChar : Char := '"'

/-- JSON (not JavaScript) whitespace. -/
def isJsonWs (c : Char) : Bool := c = ' ' ∨ c = '\t' ∨ c = '\n' ∨ c = '\r'

def skipJsonWs (cs : List Char) : List Char := cs.dropWhile isJsonWs

def isHexDigit (c : Char) : Bool :=
  c.isDigit ∨ ('a' ≤ c ∧ c ≤ 'f') ∨ ('A' ≤ c ∧ c ≤ 'F')

/-- Consume the remainder of a JSON string literal after the opening
quote; none on malformed escapes or raw control characters. -/
def jpStr (cs : List Char) : Option (List Char) :=
  match cs with
  | [] => none
  | c :: rest =>
    if c = quoteChar then some rest
    else if c = '\\' then
      match rest with
      | [] => none
      | e :: rest2 =>
        if e = 'u' then
          match rest2 with
          | a :: b :: c3 :: d :: rest3 =>
            if isHexDigit a ∧ isHexDigit b ∧ isHexDigit c3 ∧ isHexDigit d then
              jpStr rest3
            else none
          | _ => none
        else if e = quoteChar ∨ e = '\\' ∨ e = '/' ∨ e = 'b' ∨ e = 'f' ∨
            e = 'n' ∨ e = 'r' ∨ e = 't' then jpStr rest2
        else none
    else if c.toNat < 32 then none
    else jpStr rest

/-- Consume a JSON number literal; none if no valid number starts here. -/
def jpNum (cs : List Char) : Option (List Char) :=
  let cs1 := match cs with
    | '-' :: rest => rest
    | rest => rest
  let intDigits := cs1.takeWhile Char.isDigit
  if intDigits.isEmpty then none
  else if intDigits.length > 1 ∧ intDigits.headI = '0' then none
  else
    let cs2 := cs1.drop intDigits.length
    let afterFrac : Option (List Char) := match cs2 with
      | '.' :: rest =>
        let fr := rest.takeWhile Char.isDigit
        if fr.isEmpty then none else some (rest.drop fr.length)
      | rest => some rest
    match afterFrac with
    | none => none
    | some cs3 =>
      match cs3 with
      | e :: rest =>
        if e = 'e' ∨ e = 'E' then
          let rest2 := match rest with
            | '+' :: r => r
            | '-' :: r => r
            | r => r
          let ed := rest2.takeWhile Char.isDigit
          if ed.isEmpty then none else some (rest2.drop ed.length)
        else some cs3
      | [] => some cs3

mutual

/-- Consume one JSON value. The fuel argument strictly decreases on every
recursive call and every such call follows consuming at least one input
character, so inputLength + 1 fuel always suffices. -/
def jpVal (fuel : ℕ) (cs : List Char) : Option (List Char) :=
  match fuel with
  | 0 => none
  | fuel + 1 =>
    match cs with
    | [] => none
    | c :: rest =>
      if c = '{' then
        let r := skipJsonWs rest
        match r with
        | '}' :: r2 => some r2
        | _ => jpMembers fuel r
      else if c = '[' then
        let r := skipJsonWs rest
        match r with
        | ']' :: r2 => some r2
        | _ => jpElems fuel r
      else if c = quoteChar then jpStr rest
      else if c = 't' then
        match rest with
        | 'r' :: 'u' :: 'e' :: r => some r
        | _ => none
      else if c = 'f' then
        match rest with
        | 'a' :: 'l' :: 's' :: 'e' :: r => some r
        | _ => none
      else if c = 'n' then
        match rest with
        | 'u' :: 'l' :: 'l' :: r => some r
        | _ => none
      else jpNum cs

/-- Consume the members of an object (cursor before a key string) and the
closing brace. -/
def jpMembers (fuel : ℕ) (cs : List Char) : Option (List Char) :=
  match fuel with
  | 0 => none
  | fuel + 1 =>
    match cs with
    | c :: rest =>
      if c = quoteChar then
        match jpStr rest with
        | none => none
        | some r1 =>
          match skipJsonWs r1 with
          | ':' :: r2 =>
            match jpVal fuel (skipJsonWs r2) with
            | none => none
            | some r3 =>
              match skipJsonWs r3 with
              | ',' :: r4 => jpMembers fuel (skipJsonWs r4)
              | '}' :: r4 => some r4
              | _ => none
          | _ => none
      else none
    | [] => none

/-- Consume the elements of an array (cursor before an element) and the
closing bracket. -/
def jpElems (fuel : ℕ) (cs : List Char) : Option (List Char) :=
  match fuel with
  | 0 => none
  | fuel + 1 =>
    match jpVal fuel (skipJsonWs cs) with
    | none => none
    | some r1 =>
      match skipJsonWs r1 with
      | ',' :: r2 => jpElems fuel r2
      | ']' :: r2 => some r2
      | _ => none

end

/-- Whether JSON.parse succeeds on the text. -/
def jsonValid (cs : List Char) : Bool :=
  match jpVal (cs.length + 1) (skipJsonWs cs) with
  | some rest => (skipJsonWs rest).isEmpty
  | none => false

/-- Count of occurrences of a character (the global single-character
regex match count used for the brace/bracket/quote tallies). -/
def countChar (c : Char) (cs : List Char) : ℕ := (cs.filter (· = c)).length

/-- Whether the suffix of the input starting at this cursor fully matches
quote, non-quotes, quote, ws*, colon, ws*, quote, non-quotes-to-end (the
tail of the incomplete-string-value regex of repair strategy 1). Each
greedy piece is forced: the non-quote runs must stop at a quote and the
whitespace runs at the colon and quote. -/
def incompleteTailAt (cs : List Char) : Bool :=
  match cs with
  | c :: rest =>
    if c = quoteChar then
      let key := rest.takeWhile (· ≠ quoteChar)
      match rest.drop key.length with
      | c2 :: r2 =>
        if c2 = quoteChar then
          match (r2.dropWhile isWsJS) with
          | ':' :: r3 =>
            match r3.dropWhile isWsJS with
            | c4 :: r4 => c4 = quoteChar && r4.all (· ≠ quoteChar)
            | [] => false
          | _ => false
        else false
      | [] => false
    else false
  | [] => false

/-- The replace of a trailing comma plus whitespace (the regex comma,
ws*, end-anchor): if the string ends in a comma followed only by
whitespace, everything from that comma on is removed. -/
def stripTrailingComma (cs : List Char) : List Char :=
  match cs.reverse.dropWhile isWsJS with
  | ',' :: r => r.reverse
  | _ => cs

/-- Repair strategy 1 (part_005 lines 269-273): match
lazy-dot-star-captured, quote, non-quotes, quote, ws*, colon, ws*, quote,
non-quotes, end-anchor. The engine picks the smallest suffix start i at
which the quoted tail matches; the lazy dot-star group cannot cross a
newline, so the retained capture is the text between the last newline
before i and i, with a trailing comma then stripped. Without a match the
text is unchanged. -/
def repairStrategy1 (cs : List Char) : List Char :=
  match (List.range cs.length).find? (fun i => incompleteTailAt (cs.drop i)) with
  | none => cs
  | some i =>
    stripTrailingComma (((cs.take i).reverse.takeWhile (· ≠ '\n')).reverse)

/-- lastIndexOf as in JavaScript: -1 when absent. -/
def lastIndexOfC (c : Char) (cs : List Char) : ℤ :=
  match cs.reverse.findIdx? (· = c) with
  | some k => (cs.length : ℤ) - 1 - k
  | none => -1

/-- Whether the text after the last comma looks like a complete member:
the regex start-anchor, ws*, quote, non-quotes (one or more), quote, ws*,
colon, ws*, value characters (one or more, none of comma brace bracket),
then a closing brace or bracket. The greedy value run must stop at the
first comma, brace or bracket, and shorter backtracked runs end on value
characters, so the test reduces to that first stop character. -/
def completeMemberCheck (cs : List Char) : Bool :=
  match cs.dropWhile isWsJS with
  | c :: rest =>
    if c = quoteChar then
      let key := rest.takeWhile (· ≠ quoteChar)
      if key.length = 0 then false
      else
        match rest.drop key.length with
        | c2 :: r2 =>
          if c2 = quoteChar then
            match r2.dropWhile isWsJS with
            | ':' :: r3 =>
              let r4 := r3.dropWhile isWsJS
              let v := r4.takeWhile (fun ch => ¬ (ch = ',' ∨ ch = '}' ∨ ch = ']'))
              if v.length = 0 then false
              else
                match r4.drop v.length with
                | ch :: _ => ch = '}' ∨ ch = ']'
                | [] => false
            | _ => false
          else false
        | [] => false
    else false
  | [] => false

/-- Repair strategy 2 (part_005 lines 275-289): when the last comma lies
after the last opening brace and bracket and the trimmed text after it is
nonempty and fails the complete-member test, truncate at that comma. -/
def repairStrategy2 (cs : List Char) : List Char :=
  let lastComma := lastIndexOfC ',' cs
  let lastOpenBrace := lastIndexOfC '{' cs
  let lastOpenBracket := lastIndexOfC '[' cs
  if lastComma > max lastOpenBrace lastOpenBracket then
    let afterComma := trimJS (cs.drop (lastComma.toNat + 1))
    if afterComma.length ≠ 0 ∧ ¬ completeMemberCheck afterComma then
      cs.take lastComma.toNat
    else cs
  else cs

/-- Repair strategy 3 (part_005 lines 291-296): close an odd quote. -/
def repairStrategy3 (cs : List Char) : List Char :=
  if countChar quoteChar cs % 2 ≠ 0 then cs ++ [quoteChar] else cs

/-- The strategy pipeline of AIService.attemptJSONRepair (part_005 lines
250-313): when the brace or bracket tallies of the trimmed input show a
deficit, apply strategies 1 to 3 and append the missing closers counted
on the trimmed input before any strategy ran; otherwise no repair is
attempted. -/
def repairCandidate (jsonString : List Char) : Option (List Char) :=
  let t := trimJS jsonString
  let openBraces := countChar '{' t
  let closeBraces := countChar '}' t
  let openBrackets := countChar '[' t
  let closeBrackets := countChar ']' t
  if openBraces > closeBraces ∨ openBrackets > closeBrackets then
    let r1 := repairStrategy1 t
    let r2 := repairStrategy2 r1
    let r3 := repairStrategy3 r2
    some (r3 ++ List.replicate (openBrackets - closeBrackets) ']'
      ++ List.replicate (openBraces - closeBraces) '}')
  else none

/-- AIService.attemptJSONRepair (part_005 lines 250-328). The console
logging is omitted; the final JSON.parse check and the surrounding
try/catch make the function return the repaired text exactly when that
text parses, and null (none) otherwise or when the tallies show no
deficit. -/
def attemptJSONRepair (jsonString : List Char) : Option (List Char) :=
  match repairCandidate jsonString with
  | some r4 => if jsonValid r4 then some r4 else none
  | none => none

/-! ## The orchestrator: ContentAnalyzer of src/unnamed/part_006, composed
with the aiService singleton of src/writing-assistant/src/services/ai.ts.
The network call and the parse of its payload are threaded as explicit
outcome parameters; the analysis record carried by a successful response
is passed in as a value, since the orchestrator copies it wholesale. -/

/-- ToInt32 (the JavaScript hash & hash and << coercions): wrap into
[-2^31, 2^31). -/
def toInt32 (n : ℤ) : ℤ := (n + 2 ^ 31) % 2 ^ 32 - 2 ^ 31

/-- One step of the rolling hash: hash = ((hash << 5) - hash) + charCode,
then hash = hash & hash. The shift coerces to 32 bits and so does the
final and; the intermediate subtraction and addition are exact doubles. -/
def hashStep (h : ℤ) (c : Char) : ℤ := toInt32 (toInt32 (h * 32) - h + c.toNat)

/-- ContentAnalyzer.generateCacheKey (part_006 lines 95-104). -/
def generateCacheKey (content : String) : String :=
  let h := content.toList.foldl hashStep 0
  "analysis_" ++ toString h.natAbs ++ "_" ++ toString content.toList.length

/-- The cache timeout: 5 * 60 * 1000 milliseconds. -/
def cacheTimeout : ℤ := 5 * 60 * 1000

/-- ContentAnalyzer.isCacheValid (part_006 lines 106-108). -/
def isCacheValid (now : ℤ) (cached : AnalysisResult) : Bool :=
  now - cached.timestamp < cacheTimeout

/-- The private cache Map of a ContentAnalyzer instance. Map.get takes
the first binding of a key and Map.set prepends, which agrees with the
replace-on-set JavaScript Map observationally. -/
structure OrchState where
  cache : List (String × AnalysisResult)
deriving DecidableEq, Repr

/-- Outcome of the OpenAI client call inside
aiService.analyzeContent: either a response whose choices-0-message
content is present or absent, or a rejected promise. -/
inductive NetOutcome where
  | ok (contentPresent : Bool) : NetOutcome
  | fail (msg : String) : NetOutcome
deriving DecidableEq, Repr

/-- AIService.analyzeContent of src/writing-assistant/src/services/ai.ts
(lines 95-146), as seen by its caller: configuration and empty-content
checks throw before any network attempt; a rejected call or missing
message content throws; otherwise the parsed analysis (whose parser never
throws, falling back internally) is returned with success = true. The
value parsedResult stands for that parser output. -/
def aiAnalyzeContent (configured : Bool) (content : String)
    (net : NetOutcome) (parsedResult : AnalysisResult) :
    Except String AnalysisResult :=
  if ¬ configured then
    Except.error "AI service not configured. Please set your OpenAI API key."
  else if trimJS content.toList = [] then
    Except.error "Content cannot be empty"
  else
    match net with
    | NetOutcome.fail msg => Except.error ("Analysis failed: " ++ msg)
    | NetOutcome.ok false => Except.error "No analysis received from AI service"
    | NetOutcome.ok true => Except.ok parsedResult

namespace ContentAnalyzer

/-- The cache consultation shared by analyzePost and analyzeContent
(part_006 lines 21-26 and 66-71): the entry under the content key, if
present and still valid. -/
def cacheHit (st : OrchState) (now : ℤ) (content : String) :
    Option AnalysisResult :=
  match st.cache.lookup (generateCacheKey content) with
  | some cached => if isCacheValid now cached then some cached else none
  | none => none

/-- ContentAnalyzer.analyzeContent (part_006 lines 61-93). Date.now() and
the random id suffix of the fallback are the now and rand arguments. The
response.success and response.data checks are subsumed by the Except
result of aiAnalyzeContent; every AIServiceError lands in the catch-all,
which returns the basic analysis without touching the cache. -/
def analyzeContent (st : OrchState) (configured : Bool) (net : NetOutcome)
    (parsedResult : AnalysisResult) (now : ℤ) (rand : String)
    (content : String) (postId : Option String) :
    Except String (AnalysisResult × OrchState) :=
  if trimJS content.toList = [] then
    Except.error "Cannot analyze empty content"
  else
    let cacheKey := generateCacheKey content
    match cacheHit st now content with
    | some cached =>
      Except.ok ({ cached with postId := strOrEmpty postId }, st)
    | none =>
      match aiAnalyzeContent configured content net parsedResult with
      | Except.ok data =>
        let analysisResult :=
          { data with postId := strOrEmpty postId, timestamp := now }
        Except.ok (analysisResult,
          { cache := (cacheKey, analysisResult) :: st.cache })
      | Except.error _ =>
        Except.ok (createBasicAnalysis content postId now rand, st)

/-- The Post record fields used by analyzePost. -/
structure PostM where
  id : String
  content : String
deriving DecidableEq, Repr

/-- ContentAnalyzer.analyzePost (part_006 lines 15-59). The updatedPost
local that appends to the analysis history is dead code in the source and
is omitted. -/
def analyzePost (st : OrchState) (configured : Bool) (net : NetOutcome)
    (parsedResult : AnalysisResult) (now : ℤ) (rand : String)
    (post : PostM) : Except String (AnalysisResult × OrchState) :=
  if trimJS post.content.toList = [] then
    Except.error "Cannot analyze empty content"
  else
    let cacheKey := generateCacheKey post.content
    match cacheHit st now post.content with
    | some cached => Except.ok ({ cached with postId := post.id }, st)
    | none =>
      match aiAnalyzeContent configured post.content net parsedResult with
      | Except.ok data =>
        let analysisResult := { data with postId := post.id, timestamp := now }
        Except.ok (analysisResult,
          { cache := (cacheKey, analysisResult) :: st.cache })
      | Except.error _ =>
        Except.ok (createBasicAnalysis post.content (some post.id) now rand, st)

end ContentAnalyzer

/-! ## The request throttler of
src/writing-assistant/src/services/ai.ts (lines 51-93). Tasks pushed by
rateLimitedRequest are drained by the single processQueue loop (the
isProcessingQueue flag is set before the first suspension point, so only
one drain loop runs); the queue list below is the submission order. Each
queued closure resolves or rejects its own promise and never throws into
the loop, and the loop additionally guards the await with try/catch, so a
failing task only logs. Times are epoch milliseconds; a task is a
duration together with a success flag. -/

def requestInterval : ℤ := 1000

structure QTask where
  dur : ℕ
  ok : Bool
deriving DecidableEq, Repr

/-- One pass of the processQueue while loop, started with the stored
lastRequestTime and the current clock: if less than the interval has
passed since lastRequestTime, sleep exactly up to lastRequestTime +
interval; dispatch the head task; after it settles, set lastRequestTime
to the completion time and continue. Returns the dispatch start time and
success flag of every task in queue order. -/
def drainQueue (lastReq now : ℤ) (tasks : List QTask) : List (ℤ × Bool) :=
  match tasks with
  | [] => []
  | t :: rest =>
    let start := if now - lastReq < requestInterval
      then lastReq + requestInterval else now
    let fin := start + t.dur
    (start, t.ok) :: drainQueue fin fin rest

/-! ## Claims -/

/-- C4 counterexample: a provider response accepted by the parser whose
readabilityScore is 7.5 keeps the non-integer value 7.5 (clamping does
not round), and whose clarityScore is the non-numeric string high
produces NaN rather than the default 5 (the string is truthy, so the
or-default is skipped, and Math.min propagates NaN). -/
theorem C4_counterexample :
    (parseAnalysisData
      (Json.obj [("metrics", Json.obj [("readabilityScore", Json.num (mkRat 15 2)),
        ("clarityScore", Json.str "high")]),
       ("suggestions", Json.arr [])]) 0).map
      (fun a => (a.metrics.readabilityScore, a.metrics.clarityScore))
      = some (some (mkRat 15 2), none) ∧ (mkRat 15 2).isInt = false := by
  exact ⟨by decide, by decide⟩

/-- C4 amended: a score value that is a nonzero number is clamped into
[1,10] but not rounded; a falsy value (absent, null, 0, empty string)
defaults to 5; a truthy non-numeric string yields NaN. -/
theorem C4_amended (v : Json) :
    (v.truthy = false → clampScore v = some 5) ∧
    (∀ q : ℚ, v = Json.num q → q ≠ 0 →
      clampScore v = some (max 1 (min 10 q)) ∧
      1 ≤ max 1 (min 10 q) ∧ max 1 (min 10 q) ≤ 10) ∧
    (∀ s : String, v = Json.str s → s ≠ "" → strToNumber s = none →
      clampScore v = none) := by
  refine ⟨?_, ?_, ?_⟩
  · intro h
    simp [clampScore, jsOr, h, toNumber, jsMin2, jsMax2]
    norm_num
  · rintro q rfl hq
    have ht : (Json.num q).truthy = true := by
      simp [truthy, hq]
    refine ⟨?_, le_max_left _ _, ?_⟩
    · simp [clampScore, jsOr, ht, toNumber, jsMin2, jsMax2]
    · exact max_le (by norm_num) (min_le_left _ _)
  · rintro s rfl hs hnum
    have ht : (Json.str s).truthy = true := by
      simp [truthy, hs]
    simp [clampScore, jsOr, ht, toNumber, hnum, jsMin2, jsMax2]

/-- C4 witness: an absent score defaults to 5 and the number 7 is kept
clamped. -/
theorem C4_witness :
    clampScore Json.undef = some 5 ∧
    clampScore (Json.num 7) = some (max 1 (min 10 7)) := by
  exact ⟨(C4_amended Json.undef).1 rfl,
    ((C4_amended (Json.num 7)).2.1 7 rfl (by norm_num)).1⟩

/-- C5 counterexample: a suggestion whose type is the unknown value
banana and whose severity is the unknown value urgent is accepted with
those values kept verbatim; the or-defaults only replace falsy values,
they do not validate membership in the allowed sets. -/
theorem C5_counterexample :
    (parseAnalysisData
      (Json.obj [("metrics", Json.obj [("readabilityScore", Json.num 5)]),
       ("suggestions", Json.arr [Json.obj [("type", Json.str "banana"),
         ("severity", Json.str "urgent")]])]) 42).map
      (fun a => a.suggestions.map (fun s => (s.type, s.severity)))
      = some [(Json.str "banana", Json.str "urgent")] ∧
    Json.str "banana" ≠ Json.str "clarity" ∧
    Json.str "urgent" ≠ Json.str "low" := by
  refine ⟨rfl, by simp, by simp⟩

/-- C5 amended: the parser maps each accepted suggestion with type equal
to the given value when that value is truthy (known or not), and to the
default clarity only when it is falsy; likewise severity defaults to low
only when falsy. -/
theorem C5_amended (len : ℚ) (s : Json) (res : ParsedSuggestion)
    (h : processSuggestion len s = some res) :
    ∃ tv sv, jsGet s "type" = some tv ∧ jsGet s "severity" = some sv ∧
      res.type = jsOr tv (Json.str "clarity") ∧
      res.severity = jsOr sv (Json.str "low") ∧
      (tv.truthy = false → res.type = Json.str "clarity") ∧
      (tv.truthy = true → res.type = tv) ∧
      (sv.truthy = false → res.severity = Json.str "low") ∧
      (sv.truthy = true → res.severity = sv) := by
  simp only [processSuggestion, Option.bind_eq_some, Option.some.injEq,
    Option.pure_def, Option.bind_eq_bind] at h
  obtain ⟨tv, htv, sv, hsv, _, _, _, _, _, _, pos, hpos, ps, hps, pe, hpe,
    hres⟩ := h
  subst hres
  refine ⟨tv, sv, htv, hsv, rfl, rfl, ?_, ?_, ?_, ?_⟩
  · intro hf
    simp [jsOr, hf]
  · intro ht
    simp [jsOr, ht]
  · intro hf
    simp [jsOr, hf]
  · intro ht
    simp [jsOr, ht]

/-- C5 witness: the concrete suggestion with truthy unknown type banana
keeps it, while its absent severity gets the default low. -/
theorem C5_witness :
    ∃ tv sv,
      jsGet (Json.obj [("type", Json.str "banana")]) "type" = some tv ∧
      jsGet (Json.obj [("type", Json.str "banana")]) "severity" = some sv ∧
      (ParsedSuggestion.mk (Json.str "banana") (Json.str "low") (Json.str "")
        (Json.str "") (Json.str "") (some 0) (some 0)).type
        = jsOr tv (Json.str "clarity") ∧
      (ParsedSuggestion.mk (Json.str "banana") (Json.str "low") (Json.str "")
        (Json.str "") (Json.str "") (some 0) (some 0)).severity
        = jsOr sv (Json.str "low") ∧
      (tv.truthy = false →
        (ParsedSuggestion.mk (Json.str "banana") (Json.str "low")
          (Json.str "") (Json.str "") (Json.str "") (some 0) (some 0)).type
          = Json.str "clarity") ∧
      (tv.truthy = true →
        (ParsedSuggestion.mk (Json.str "banana") (Json.str "low")
          (Json.str "") (Json.str "") (Json.str "") (some 0) (some 0)).type
          = tv) ∧
      (sv.truthy = false →
        (ParsedSuggestion.mk (Json.str "banana") (Json.str "low")
          (Json.str "") (Json.str "") (Json.str "") (some 0)
          (some 0)).severity = Json.str "low") ∧
      (sv.truthy = true →
        (ParsedSuggestion.mk (Json.str "banana") (Json.str "low")
          (Json.str "") (Json.str "") (Json.str "") (some 0)
          (some 0)).severity = sv) :=
  C5_amended 10 (Json.obj [("type", Json.str "banana")])
    (ParsedSuggestion.mk (Json.str "banana") (Json.str "low") (Json.str "")
      (Json.str "") (Json.str "") (some 0) (some 0)) (by rfl)

/-- C2 counterexample: with the provider not configured (a configuration
error), nonempty content and an empty cache, the orchestrator does not
propagate the error: the catch-all around the provider call swallows the
configuration error and returns the heuristic fallback analysis. -/
theorem C2_counterexample :
    ContentAnalyzer.analyzeContent ⟨[]⟩ false (NetOutcome.ok true)
      (createBasicAnalysis "x" none 0 "q") 0 "r" "hello" none
      = Except.ok (createBasicAnalysis "hello" none 0 "r", ⟨[]⟩) := by
  rfl

/-- C2 amended: an empty-content validation error propagates to the
orchestrator caller before the provider is consulted; every error thrown
by the provider path (configuration error included, alongside transport
and malformed-response errors) is caught by the orchestrator and yields
the heuristic fallback result instead of an error. -/
theorem C2_amended (st : OrchState) (configured : Bool) (net : NetOutcome)
    (parsedResult : AnalysisResult) (now : ℤ) (rand : String)
    (content : String) (postId : Option String) :
    (trimJS content.toList = [] →
      ContentAnalyzer.analyzeContent st configured net parsedResult now rand
        content postId = Except.error "Cannot analyze empty content") ∧
    (trimJS content.toList ≠ [] →
      ContentAnalyzer.cacheHit st now content = none →
      ∀ e, aiAnalyzeContent configured content net parsedResult
        = Except.error e →
      ContentAnalyzer.analyzeContent st configured net parsedResult now rand
        content postId
        = Except.ok (createBasicAnalysis content postId now rand, st)) := by
  constructor
  · intro he
    simp only [String.toList] at he
    unfold ContentAnalyzer.analyzeContent
    simp [he]
  · intro hne hmiss e herr
    simp only [String.toList] at hne
    unfold ContentAnalyzer.analyzeContent
    simp [hne, hmiss, herr]

/-- C2 witness: the empty string propagates as a validation error, and a
transport failure with nonempty content and empty cache produces the
fallback result. -/
theorem C2_witness :
    ContentAnalyzer.analyzeContent ⟨[]⟩ true (NetOutcome.fail "http 500")
      (createBasicAnalysis "x" none 0 "q") 0 "r" "" none
      = Except.error "Cannot analyze empty content" ∧
    ContentAnalyzer.analyzeContent ⟨[]⟩ true (NetOutcome.fail "http 500")
      (createBasicAnalysis "x" none 0 "q") 0 "r" "hi" none
      = Except.ok (createBasicAnalysis "hi" none 0 "r", ⟨[]⟩) :=
  ⟨(C2_amended ⟨[]⟩ true (NetOutcome.fail "http 500")
      (createBasicAnalysis "x" none 0 "q") 0 "r" "" none).1 (by decide),
   (C2_amended ⟨[]⟩ true (NetOutcome.fail "http 500")
      (createBasicAnalysis "x" none 0 "q") 0 "r" "hi" none).2 (by decide)
      (by decide) "Analysis failed: http 500" (by rfl)⟩

/-- C3 counterexample: on a recoverable provider failure (transport
error), the orchestrator returns the heuristic fallback but the returned
cache state is the unchanged empty cache: no entry is written under the
content key, contradicting the claimed FALLBACK to CACHE_WRITE to DONE
path. -/
theorem C3_counterexample :
    ContentAnalyzer.analyzeContent ⟨[]⟩ true (NetOutcome.fail "boom")
      (createBasicAnalysis "x" none 0 "q") 0 "r" "hello" none
      = Except.ok (createBasicAnalysis "hello" none 0 "r", ⟨[]⟩) ∧
    ([] : List (String × AnalysisResult)).lookup (generateCacheKey "hello")
      = none := by
  exact ⟨rfl, rfl⟩

/-- C3 amended: when the provider path fails with any error the
orchestrator returns the heuristic fallback with the cache state
unchanged (FALLBACK to DONE, no cache write); only the provider-success
path writes its result into the cache. -/
theorem C3_amended (st : OrchState) (configured : Bool) (net : NetOutcome)
    (parsedResult : AnalysisResult) (now : ℤ) (rand : String)
    (content : String) (postId : Option String)
    (hne : trimJS content.toList ≠ [])
    (hmiss : ContentAnalyzer.cacheHit st now content = none) :
    (∀ e, aiAnalyzeContent configured content net parsedResult
        = Except.error e →
      (ContentAnalyzer.analyzeContent st configured net parsedResult now rand
        content postId).map Prod.snd = Except.ok st) ∧
    (∀ data, aiAnalyzeContent configured content net parsedResult
        = Except.ok data →
      (ContentAnalyzer.analyzeContent st configured net parsedResult now rand
        content postId).map Prod.snd = Except.ok
        ⟨(generateCacheKey content,
          { data with postId := strOrEmpty postId, timestamp := now })
          :: st.cache⟩) := by
  simp only [String.toList] at hne
  constructor
  · intro e herr
    unfold ContentAnalyzer.analyzeContent
    simp [hne, hmiss, herr, Except.map]
  · intro data hok
    unfold ContentAnalyzer.analyzeContent
    simp [hne, hmiss, hok, Except.map]

/-- C3 witness: concrete transport failure leaves the one-entry cache
exactly as it was; a concrete success prepends the new entry. -/
theorem C3_witness :
    (ContentAnalyzer.analyzeContent ⟨[]⟩ true (NetOutcome.fail "boom")
      (createBasicAnalysis "x" none 0 "q") 0 "r" "hey" none).map Prod.snd
      = Except.ok (⟨[]⟩ : OrchState) ∧
    (ContentAnalyzer.analyzeContent ⟨[]⟩ true (NetOutcome.ok true)
      (createBasicAnalysis "x" none 0 "q") 0 "r" "hey" none).map Prod.snd
      = Except.ok (⟨[(generateCacheKey "hey",
          { (createBasicAnalysis "x" none 0 "q") with
            postId := strOrEmpty none
            timestamp := 0 })]⟩ : OrchState) :=
  ⟨(C3_amended ⟨[]⟩ true (NetOutcome.fail "boom")
      (createBasicAnalysis "x" none 0 "q") 0 "r" "hey" none (by decide)
      (by decide)).1 "Analysis failed: boom" (by rfl),
   (C3_amended ⟨[]⟩ true (NetOutcome.ok true)
      (createBasicAnalysis "x" none 0 "q") 0 "r" "hey" none (by decide)
      (by decide)).2 (createBasicAnalysis "x" none 0 "q") (by rfl)⟩

/-- C10: on a cache hit (entry under the content fingerprint younger than
the TTL), both orchestrator entry points return the cached record with
only postId replaced (the caller id, empty string when none is supplied
to analyzeContent) and every other field, the state included, unchanged. -/
theorem C10_cache_hit (st : OrchState) (configured : Bool)
    (net : NetOutcome) (parsedResult : AnalysisResult) (now : ℤ)
    (rand : String) :
    (∀ (content : String) (postId : Option String)
      (cached : AnalysisResult),
      trimJS content.toList ≠ [] →
      ContentAnalyzer.cacheHit st now content = some cached →
      ContentAnalyzer.analyzeContent st configured net parsedResult now rand
        content postId
        = Except.ok ({ cached with postId := strOrEmpty postId }, st)) ∧
    (∀ (post : ContentAnalyzer.PostM) (cached : AnalysisResult),
      trimJS post.content.toList ≠ [] →
      ContentAnalyzer.cacheHit st now post.content = some cached →
      ContentAnalyzer.analyzePost st configured net parsedResult now rand post
        = Except.ok ({ cached with postId := post.id }, st)) ∧
    strOrEmpty none = "" := by
  refine ⟨?_, ?_, rfl⟩
  · intro content postId cached hne hhit
    simp only [String.toList] at hne
    unfold ContentAnalyzer.analyzeContent
    simp [hne, hhit]
  · intro post cached hne hhit
    simp only [String.toList] at hne
    unfold ContentAnalyzer.analyzePost
    simp [hne, hhit]

/-- C10 witness: a concrete one-entry cache with a fresh timestamp is hit
and returned with only postId replaced. -/
theorem C10_witness :
    ContentAnalyzer.analyzeContent
      ⟨[(generateCacheKey "hi", createBasicAnalysis "hi" (some "old") 0 "w")]⟩
      true (NetOutcome.ok true) (createBasicAnalysis "x" none 0 "q") 1 "r"
      "hi" (some "post7")
      = Except.ok
        ({ (createBasicAnalysis "hi" (some "old") 0 "w") with
           postId := strOrEmpty (some "post7") },
         ⟨[(generateCacheKey "hi",
            createBasicAnalysis "hi" (some "old") 0 "w")]⟩) :=
  (C10_cache_hit
    ⟨[(generateCacheKey "hi", createBasicAnalysis "hi" (some "old") 0 "w")]⟩
    true (NetOutcome.ok true) (createBasicAnalysis "x" none 0 "q") 1
    "r").1 "hi" (some "post7") (createBasicAnalysis "hi" (some "old") 0 "w")
    (by decide) (by rfl)

/-- The tone rule exactly as the claim states it: the keyword set with
the strict highest occurrence count wins, resolved with precedence
Technical, Formal, Casual, Emotional (Emotional only above 2), else
Neutral. Written from the claim wording for comparison with analyzeTone. -/
def toneSpecClaimed (tech formal casual emotional : ℕ) : String :=
  if tech > formal ∧ tech > casual ∧ tech > emotional then "Technical"
  else if formal > tech ∧ formal > casual ∧ formal > emotional then "Formal"
  else if casual > tech ∧ casual > formal ∧ casual > emotional then "Casual"
  else if emotional > tech ∧ emotional > formal ∧ emotional > casual ∧
    emotional > 2 then "Emotional"
  else "Neutral"

/-- C6 counterexample: in a text with one technical keyword and three
emotional keywords (the strict highest count, above 2), the code returns
Technical because the technical branch never consults the emotional
count, while the claimed strict-highest rule demands Emotional. -/
theorem C6_counterexample :
    analyzeTone "implement amazing amazing amazing".toList = "Technical" ∧
    technicalCount "implement amazing amazing amazing".toList = 1 ∧
    formalCount "implement amazing amazing amazing".toList = 0 ∧
    casualCount "implement amazing amazing amazing".toList = 0 ∧
    emotionalCount "implement amazing amazing amazing".toList = 3 ∧
    toneSpecClaimed 1 0 0 3 = "Emotional" ∧
    "Technical" ≠ "Emotional" := by
  refine ⟨by decide, by decide, by decide, by decide, by decide, by decide,
    by decide⟩

/-- The cascade the code actually implements, written from the amended
wording: Technical when the technical count strictly exceeds the formal
and casual counts (the emotional count is not consulted); else Formal
when the formal count strictly exceeds the casual and emotional counts;
else Casual when the casual count strictly exceeds the formal count; else
Emotional when the emotional count exceeds 2; else Neutral. -/
def toneCascadeAmended (tech formal casual emotional : ℕ) : String :=
  if tech > formal ∧ tech > casual then "Technical"
  else if formal > casual ∧ formal > emotional then "Formal"
  else if casual > formal then "Casual"
  else if emotional > 2 then "Emotional"
  else "Neutral"

/-- C6 amended: for every content, analyzeTone is the cascade above
applied to the four keyword-set counts. -/
theorem C6_amended (content : List Char) :
    analyzeTone content = toneCascadeAmended (technicalCount content)
      (formalCount content) (casualCount content) (emotionalCount content)
    := by
  rfl

theorem drainQueue_length (lastReq now : ℤ) (tasks : List QTask) :
    (drainQueue lastReq now tasks).length = tasks.length := by
  induction tasks generalizing lastReq now with
  | nil => rfl
  | cons t rest ih => simp [drainQueue, ih]

theorem drainQueue_map_snd (lastReq now : ℤ) (tasks : List QTask) :
    (drainQueue lastReq now tasks).map Prod.snd = tasks.map QTask.ok := by
  induction tasks generalizing lastReq now with
  | nil => rfl
  | cons t rest ih => simp [drainQueue, ih]

theorem drainQueue_head_start (lastReq now : ℤ) (t : QTask)
    (rest : List QTask) :
    (drainQueue lastReq now (t :: rest)).head?
      = some ((if now - lastReq < requestInterval
          then lastReq + requestInterval else now), t.ok) := by
  rfl

/-- Consecutive dispatch start times of one drain differ by at least the
interval: after a task settles at time fin, the loop sees a zero elapsed
time and sleeps the full interval. -/
theorem drainQueue_chain (lastReq now : ℤ) (tasks : List QTask) :
    List.Chain' (fun a b : ℤ × Bool => a.1 + requestInterval ≤ b.1)
      (drainQueue lastReq now tasks) := by
  induction tasks generalizing lastReq now with
  | nil => simp [drainQueue]
  | cons t rest ih =>
    rw [drainQueue]
    apply List.Chain'.cons'
    · exact ih _ _
    · intro y hy
      match rest, hy with
      | t2 :: r2, hy =>
        rw [drainQueue_head_start] at hy
        simp only [Option.mem_def, Option.some.injEq] at hy
        subst hy
        have h0 : ∀ s : ℤ, s + (t.dur : ℤ) - (s + (t.dur : ℤ))
            < requestInterval := by
          intro s
          simp [requestInterval]
        rw [if_pos (h0 _)]
        have hd : (0 : ℤ) ≤ (t.dur : ℤ) := Int.ofNat_nonneg _
        simp only []
        linarith

theorem chainGap_head_last :
    ∀ l : List (ℤ × Bool),
    List.Chain' (fun a b : ℤ × Bool => a.1 + requestInterval ≤ b.1) l →
    ∀ b : ℤ × Bool, l.getLast? = some b →
    ∀ a : ℤ × Bool, l.head? = some a →
    a.1 + ((l.length : ℤ) - 1) * requestInterval ≤ b.1 := by
  intro l
  induction l with
  | nil =>
    intro _ b hb
    simp at hb
  | cons x rest ih =>
    intro hc b hb a ha
    simp only [List.head?_cons, Option.some.injEq] at ha
    subst ha
    match rest, hc, hb, ih with
    | [], _, hb, _ =>
      simp only [List.getLast?_singleton, Option.some.injEq] at hb
      subst hb
      simp
    | y :: r2, hc, hb, ih =>
      have h1 : x.1 + requestInterval ≤ y.1 := (List.chain'_cons.mp hc).1
      have h2 := ih (List.chain'_cons.mp hc).2 b
        (by rwa [List.getLast?_cons_cons] at hb) y rfl
      simp only [List.length_cons] at h2 ⊢
      push_cast at h2 ⊢
      have hint : requestInterval = 1000 := rfl
      rw [hint] at h1 h2 ⊢
      linarith

/-- C9: a drain of N submitted tasks dispatches every task in submission
order (the result row i carries task i, failures included), consecutive
dispatch starts are separated by at least the 1000 ms interval, and at
least (N - 1) times the interval elapses between the first and the last
dispatch start. -/
theorem C9_throttler (lastReq now : ℤ) (tasks : List QTask) :
    (drainQueue lastReq now tasks).length = tasks.length ∧
    (drainQueue lastReq now tasks).map Prod.snd = tasks.map QTask.ok ∧
    (∀ (i : ℕ) (h1 : i + 1 < (drainQueue lastReq now tasks).length),
      ((drainQueue lastReq now tasks).get ⟨i, by omega⟩).1 + requestInterval
        ≤ ((drainQueue lastReq now tasks).get ⟨i + 1, h1⟩).1) ∧
    (∀ a b : ℤ × Bool, (drainQueue lastReq now tasks).head? = some a →
      (drainQueue lastReq now tasks).getLast? = some b →
      a.1 + (((tasks.length : ℤ)) - 1) * requestInterval ≤ b.1) := by
  refine ⟨drainQueue_length _ _ _, drainQueue_map_snd _ _ _, ?_, ?_⟩
  · intro i h1
    exact List.chain'_iff_get.mp (drainQueue_chain lastReq now tasks) i (by omega)
  · intro a b ha hb
    have h := chainGap_head_last _ (drainQueue_chain lastReq now tasks)
      b hb a ha
    rwa [drainQueue_length] at h

/-- C9 witness: four tasks, one failing, dispatched at 1000, 2050, 3060,
6060: all four run in order, gaps at least 1000, and the extremes differ
by at least 3000. -/
theorem C9_witness :
    (drainQueue 0 0 [⟨50, true⟩, ⟨10, false⟩, ⟨2000, true⟩, ⟨0, true⟩]).length
      = 4 ∧
    (drainQueue 0 0 [⟨50, true⟩, ⟨10, false⟩, ⟨2000, true⟩, ⟨0, true⟩]).map
      Prod.snd = [true, false, true, true] ∧
    (1000 : ℤ) + ((4 : ℤ) - 1) * requestInterval ≤ 6060 := by
  have h := C9_throttler 0 0 [⟨50, true⟩, ⟨10, false⟩, ⟨2000, true⟩, ⟨0, true⟩]
  refine ⟨h.1, h.2.1, ?_⟩
  have hlast := h.2.2.2 (1000, true) (6060, true) (by decide) (by decide)
  simpa using hlast

theorem readabilityClampFormula (a : ℚ) :
    max 1 (min 10 (10 - (if a > 20 then (2 : ℚ) else 0)
        - (if a > 25 then 2 else 0) - (if a > 30 then 2 else 0)))
      = max 1 (10 - 2 * ((if a > 20 then (1 : ℚ) else 0)
        + (if a > 25 then 1 else 0) + (if a > 30 then 1 else 0))) ∧
    1 ≤ max 1 (min 10 (10 - (if a > 20 then (2 : ℚ) else 0)
        - (if a > 25 then 2 else 0) - (if a > 30 then 2 else 0))) ∧
    max 1 (min 10 (10 - (if a > 20 then (2 : ℚ) else 0)
        - (if a > 25 then 2 else 0) - (if a > 30 then 2 else 0))) ≤ 10 := by
  by_cases h3 : a > 30
  · have h2 : a > 25 := lt_trans (by norm_num) h3
    have h1 : a > 20 := lt_trans (by norm_num) h2
    refine ⟨?_, ?_, ?_⟩ <;> simp [h1, h2, h3] <;> norm_num
  · by_cases h2 : a > 25
    · have h1 : a > 20 := lt_trans (by norm_num) h2
      refine ⟨?_, ?_, ?_⟩ <;> simp [h1, h2, h3] <;> norm_num
    · by_cases h1 : a > 20
      · refine ⟨?_, ?_, ?_⟩ <;> simp [h1, h2, h3] <;> norm_num
      · refine ⟨?_, ?_, ?_⟩ <;> simp [h1, h2, h3] <;> norm_num

theorem clarityClampFormula (P Q : Prop) [Decidable P] [Decidable Q] :
    max 1 (min 10 (8 - (if P then (1 : ℚ) else 0) - (if Q then 1 else 0)))
      = max 1 (8 - (if P then (1 : ℚ) else 0) - (if Q then 1 else 0)) ∧
    1 ≤ max 1 (min 10 (8 - (if P then (1 : ℚ) else 0)
      - (if Q then 1 else 0))) ∧
    max 1 (min 10 (8 - (if P then (1 : ℚ) else 0) - (if Q then 1 else 0)))
      ≤ 10 := by
  by_cases hp : P <;> by_cases hq : Q <;>
    refine ⟨?_, ?_, ?_⟩ <;> simp [hp, hq] <;> norm_num

/-- C7: for nonempty content the heuristic readabilityScore is 10 minus 2
for each of the thresholds 20, 25, 30 that the average sentence length
strictly exceeds, and the clarityScore is 8 minus 1 when the average
sentences per paragraph exceed 5 and minus 1 more when the whole text is
one paragraph of more than 10 sentences, both floored at 1, and both lie
in [1, 10]. -/
theorem C7_scores (content : List Char) (h : content ≠ []) :
    (calculateBasicMetrics content).readabilityScore
      = max 1 (10 - 2 * ((if (calculateBasicMetrics content).avgWordsPerSentence
          > 20 then (1 : ℚ) else 0)
        + (if (calculateBasicMetrics content).avgWordsPerSentence > 25
          then 1 else 0)
        + (if (calculateBasicMetrics content).avgWordsPerSentence > 30
          then 1 else 0))) ∧
    1 ≤ (calculateBasicMetrics content).readabilityScore ∧
    (calculateBasicMetrics content).readabilityScore ≤ 10 ∧
    (calculateBasicMetrics content).clarityScore
      = max 1 (8 - (if (calculateBasicMetrics content).avgSentencesPerParagraph
          > 5 then (1 : ℚ) else 0)
        - (if (calculateBasicMetrics content).paragraphCount = 1 ∧
            (calculateBasicMetrics content).sentenceCount > 10
          then 1 else 0)) ∧
    1 ≤ (calculateBasicMetrics content).clarityScore ∧
    (calculateBasicMetrics content).clarityScore ≤ 10 := by
  simp only [calculateBasicMetrics]
  refine ⟨(readabilityClampFormula _).1, (readabilityClampFormula _).2.1,
    (readabilityClampFormula _).2.2, (clarityClampFormula _ _).1,
    (clarityClampFormula _ _).2.1, (clarityClampFormula _ _).2.2⟩

/-- C7 witness: the two-word single-sentence text Hello world. scores
readability 10 and clarity 8, inside [1, 10]. -/
theorem C7_witness :
    (calculateBasicMetrics "Hello world.".toList).readabilityScore = 10 ∧
    (calculateBasicMetrics "Hello world.".toList).clarityScore = 8 ∧
    1 ≤ (calculateBasicMetrics "Hello world.".toList).readabilityScore ∧
    (calculateBasicMetrics "Hello world.".toList).clarityScore ≤ 10 := by
  have h := C7_scores "Hello world.".toList (by decide)
  have hw : (getWords "Hello world.".toList).length = 2 := by decide
  have hs : (getSentences "Hello world.".toList).length = 1 := by decide
  have hp : (getParagraphs "Hello world.".toList).length = 1 := by decide
  have havg : (calculateBasicMetrics "Hello world.".toList).avgWordsPerSentence
      = 2 := by
    simp only [calculateBasicMetrics, hw, hs]
    norm_num
  have hsp :
      (calculateBasicMetrics "Hello world.".toList).avgSentencesPerParagraph
      = 1 := by
    simp only [calculateBasicMetrics, hs, hp]
    norm_num
  have hsc : (calculateBasicMetrics "Hello world.".toList).sentenceCount
      = 1 := by
    simp only [calculateBasicMetrics, hs]
  refine ⟨?_, ?_, h.2.1, h.2.2.2.2.2⟩
  · rw [h.1, havg]
    norm_num
  · rw [h.2.2.2.1, hsp, hsc]
    norm_num

set_option maxHeartbeats 2000000 in
/-- C8 counterexample: the input is valid JSON (braces inside its string
literals make the textual brace tally look truncated), yet the repair
routine does not report no-repair-needed: it truncates at the comma
inside the string value x,y, closes the quote and brace, and returns a
different valid JSON text in which the value x,y has become x. -/
theorem C8_counterexample :
    jsonValid "\x7b\"a\x7b\": 1, \"b\": \"x,y\"\x7d".toList = true ∧
    attemptJSONRepair "\x7b\"a\x7b\": 1, \"b\": \"x,y\"\x7d".toList
      = some "\x7b\"a\x7b\": 1, \"b\": \"x\"\x7d".toList ∧
    "\x7b\"a\x7b\": 1, \"b\": \"x\"\x7d".toList
      ≠ "\x7b\"a\x7b\": 1, \"b\": \"x,y\"\x7d".toList
    := by
  refine ⟨by decide, by decide, by decide⟩

/-- C8 amended: the repair routine reports no-repair-needed whenever the
trimmed input shows no textual brace or bracket deficit, which covers
valid JSON without unbalanced braces inside string literals (valid input
whose strings unbalance the tallies can be truncated and altered); and
whenever it returns a repaired string, that string parses as valid JSON,
since the routine verifies the candidate with JSON.parse before returning
it. -/
theorem C8_amended (s : List Char) :
    (countChar '{' (trimJS s) ≤ countChar '}' (trimJS s) →
      countChar '[' (trimJS s) ≤ countChar ']' (trimJS s) →
      attemptJSONRepair s = none) ∧
    (∀ r, attemptJSONRepair s = some r → jsonValid r = true) := by
  have hnone : countChar '{' (trimJS s) ≤ countChar '}' (trimJS s) →
      countChar '[' (trimJS s) ≤ countChar ']' (trimJS s) →
      repairCandidate s = none := by
    intro hb hk
    unfold repairCandidate
    simp only []
    rw [if_neg]
    push_neg
    exact ⟨hb, hk⟩
  constructor
  · intro hb hk
    unfold attemptJSONRepair
    rw [hnone hb hk]
  · intro r hr
    unfold attemptJSONRepair at hr
    cases hc : repairCandidate s with
    | none =>
      rw [hc] at hr
      exact absurd hr (by simp)
    | some r4 =>
      rw [hc] at hr
      simp only [] at hr
      split at hr
      · injection hr with hr
        subst hr
        assumption
      · exact absurd hr (by simp)

set_option maxHeartbeats 2000000 in
/-- C8 witness: a balanced valid object is left alone, and the repaired
form of a truncated array input parses as valid JSON. -/
theorem C8_witness :
    attemptJSONRepair "\x7b\"a\": 1\x7d".toList = none ∧
    jsonValid "\x7b\"a\": [1]\x7d".toList = true :=
  ⟨(C8_amended "\x7b\"a\": 1\x7d".toList).1 (by decide) (by decide),
   (C8_amended "\x7b\"a\": [1, 2".toList).2 "\x7b\"a\": [1]\x7d".toList
     (by decide)⟩

/-- C1 counterexample: a provider suggestion with position start 7, end 3
against content of length 5 is accepted with start 7 and end 3: start is
only clamped from below and end only from above, so both start less than
or equal to end and start less than or equal to the content length fail. -/
theorem C1_counterexample :
    (parseAnalysisData
      (Json.obj [("metrics", Json.obj [("readabilityScore", Json.num 5)]),
       ("suggestions", Json.arr [Json.obj [("position",
         Json.obj [("start", Json.num 7), ("end", Json.num 3)])]])]) 5).map
      (fun a => a.suggestions.map (fun s => (s.posStart, s.posEnd)))
      = some [(some 7, some 3)] ∧ ¬ ((7 : ℚ) ≤ 3) ∧ ¬ ((7 : ℚ) ≤ 5) := by
  refine ⟨by decide, by norm_num, by norm_num⟩

theorem mem_generateBasicSuggestions_position (cs : List Char)
    (m : BasicMetrics) (s : HSuggestion)
    (h : s ∈ generateBasicSuggestions cs m) :
    s.position = ⟨0, cs.length⟩ := by
  unfold generateBasicSuggestions at h
  simp only [List.mem_append] at h
  rcases h with ((h | h) | h) | h <;>
    · split at h <;> simp_all

theorem matchAltWordB_length_le (alts : List String) (prev : Option Char)
    (cs : List Char) (t : List Char) (h : matchAltWordB alts prev cs = some t) :
    t.length ≤ cs.length := by
  unfold matchAltWordB at h
  split at h
  · exact absurd h (by simp)
  · obtain ⟨w, _, hw⟩ := List.exists_of_findSome?_eq_some h
    simp only [] at hw
    split at hw
    · injection hw with hw
      subst hw
      simp [List.length_take]
    · exact absurd hw (by simp)

theorem matchIntensifier_length_le (prev : Option Char) (cs : List Char)
    (t : List Char) (h : matchIntensifier prev cs = some t) :
    t.length ≤ cs.length := by
  unfold matchIntensifier at h
  split at h
  · exact absurd h (by simp)
  · obtain ⟨w, _, hw⟩ := List.exists_of_findSome?_eq_some h
    simp only [] at hw
    split at hw
    · split at hw
      · exact absurd hw (by simp)
      · split at hw
        · exact absurd hw (by simp)
        · injection hw with hw
          subst hw
          simp [List.length_take]
    · exact absurd hw (by simp)

/-- Every match recorded by the exec scan starts at or after the running
index and ends within the input: i + length t is at most idx + length cs,
provided the matcher never claims more characters than remain. -/
theorem gScanAux_mem_bound (m : Option Char → List Char → Option (List Char))
    (hm : ∀ prev cs t, m prev cs = some t → t.length ≤ cs.length) :
    ∀ (fuel idx : ℕ) (prev : Option Char) (cs : List Char) (i : ℕ)
      (t : List Char), (i, t) ∈ gScanAux m fuel idx prev cs →
      i + t.length ≤ idx + cs.length := by
  intro fuel
  induction fuel with
  | zero =>
    intro idx prev cs i t h
    simp [gScanAux] at h
  | succ fuel ih =>
    intro idx prev cs i t h
    match cs with
    | [] => simp [gScanAux] at h
    | c :: rest =>
      rw [gScanAux] at h
      cases hm0 : m prev (c :: rest) with
      | none =>
        rw [hm0] at h
        have hb := ih (idx + 1) (some c) rest i t h
        simp only [List.length_cons]
        omega
      | some t0 =>
        have hlen := hm prev (c :: rest) t0 hm0
        rw [hm0] at h
        dsimp only [] at h
        simp only [List.length_cons] at hlen ⊢
        by_cases h0 : t0.length = 0
        · rw [if_pos h0] at h
          rcases List.mem_cons.mp h with he | h
          · injection he with he1 he2
            subst he1
            subst he2
            omega
          · have hb := ih (idx + 1) (some c) rest i t h
            omega
        · rw [if_neg h0] at h
          rcases List.mem_cons.mp h with he | h
          · injection he with he1 he2
            subst he1
            subst he2
            omega
          · have hb := ih (idx + t0.length) t0.getLast?
              (rest.drop (t0.length - 1)) i t h
            simp only [List.length_drop] at hb
            omega

/-- Every ambiguous phrase reported by the heuristic detector carries
in-bounds offsets. -/
theorem detectAmbiguousPhrases_pos (content : List Char)
    (p : HAmbiguousPhrase) (hp : p ∈ detectAmbiguousPhrases content) :
    p.position.start ≤ p.position.stop ∧
    p.position.stop ≤ content.length := by
  unfold detectAmbiguousPhrases ambiguousPatterns at hp
  simp only [List.foldl, List.nil_append, List.mem_append, List.mem_map]
    at hp
  have hstep : ∀ (mt : Option Char → List Char → Option (List Char))
      (r : String) (sg : List String),
      (∀ prev cs t, mt prev cs = some t → t.length ≤ cs.length) →
      (∃ a ∈ gScan mt content,
        ({ text := String.mk a.2,
           position := { start := a.1, stop := a.1 + a.2.length },
           reason := r, suggestions := sg } : HAmbiguousPhrase) = p) →
      p.position.start ≤ p.position.stop ∧
      p.position.stop ≤ content.length := by
    rintro mt r sg hmt ⟨a, ha, rfl⟩
    refine ⟨by simp, ?_⟩
    have hb := gScanAux_mem_bound mt hmt (content.length + 1) 0 none content
      a.1 a.2 ha
    simpa using hb
  rcases hp with ((h1 | h2) | h3) | h4
  · exact hstep _ _ _ (matchAltWordB_length_le ["a lot", "lots"]) h1
  · exact hstep _ _ _ (matchAltWordB_length_le ["stuff", "things"]) h2
  · exact hstep _ _ _ matchIntensifier_length_le h3
  · exact hstep _ _ _ (matchAltWordB_length_le ["maybe", "perhaps",
      "possibly"]) h4

/-- C1 amended: on the heuristic path every suggestion and every
ambiguous phrase satisfies 0 at most start, start at most end, end at
most the content length. On the provider-parse path positions are only
half clamped: start at least 0 and end at most the content length hold
for every accepted position, but start at most end, start at most the
length, and 0 at most end can each fail (see the counterexample). -/
theorem C1_amended :
    (∀ (content : String) (postId : Option String) (now : ℤ) (rand : String)
      (s : HSuggestion),
      s ∈ (createBasicAnalysis content postId now rand).suggestions →
      s.position.start ≤ s.position.stop ∧
      s.position.stop ≤ content.toList.length) ∧
    (∀ (content : String) (postId : Option String) (now : ℤ) (rand : String)
      (p : HAmbiguousPhrase),
      p ∈ (createBasicAnalysis content postId now rand).ambiguousPhrases →
      p.position.start ≤ p.position.stop ∧
      p.position.stop ≤ content.toList.length) ∧
    (∀ (v : Json) (q : ℚ), clampStart v = some q → 0 ≤ q) ∧
    (∀ (len : ℚ) (v : Json) (q : ℚ), clampEnd len v = some q → q ≤ len)
    := by
  refine ⟨?_, ?_, ?_, ?_⟩
  · intro content postId now rand s hs
    have hpos := mem_generateBasicSuggestions_position content.toList
      (calculateBasicMetrics content.toList) s hs
    rw [hpos]
    exact ⟨Nat.zero_le _, le_refl _⟩
  · intro content postId now rand p hp
    exact detectAmbiguousPhrases_pos content.toList p hp
  · intro v q h
    unfold clampStart at h
    cases hn : toNumber (jsOr v (Json.num 0)) with
    | none =>
      rw [hn] at h
      exact absurd h (by simp [jsMax2])
    | some y =>
      rw [hn] at h
      simp only [jsMax2] at h
      injection h with h
      subst h
      exact le_max_left 0 y
  · intro len v q h
    unfold clampEnd at h
    cases hn : toNumber (jsOr v (Json.num 0)) with
    | none =>
      rw [hn] at h
      exact absurd h (by simp [jsMin2])
    | some y =>
      rw [hn] at h
      simp only [jsMin2] at h
      injection h with h
      subst h
      exact min_le_left len y

/-- C1 witness: in the text use stuff the phrase stuff is reported at
offsets 4 to 9 inside the 9-character content, and a negative provider
start is clamped to 0 while an oversized end is clamped to the length. -/
theorem C1_witness :
    ((4 : ℕ) ≤ 9 ∧ (9 : ℕ) ≤ "use stuff".toList.length) ∧
    (0 : ℚ) ≤ 0 ∧ (5 : ℚ) ≤ 5 := by
  refine ⟨?_, ?_, ?_⟩
  · have h := C1_amended.2.1 "use stuff" none 0 "r"
      { text := "stuff", position := { start := 4, stop := 9 },
        reason := "Vague reference. Be more specific about what you mean.",
        suggestions := ["items", "elements", "components", "specific nouns"] }
      (by decide)
    simpa using h
  · exact C1_amended.2.2.1 (Json.num (-4)) 0 (by decide)
  · exact C1_amended.2.2.2 5 (Json.num 99) 5 (by decide)
